import Mathlib

/-!
Verification development for the labentry face-attendance component.

The definitions below are a shallow embedding of the decision layer of the
repository: the attendance store helpers of src/src/db/database.ts and the
matching / eligibility / confirmation logic of
src/src/components/FaceAttendance.tsx.  JavaScript numbers that hold
millisecond timestamps are modelled as Int, descriptor coordinates as Rat,
and the Euclidean distance of two descriptors is tracked by its square (a
rational) so that every definition stays computable; Real.sqrt appears only
in theorem statements, together with bridging lemmas showing the squared
comparisons agree with the distance comparisons of the source.
-/

namespace LabEntry

/-- Mirrors a RegisteredFace row of src/src/db/database.ts: Dexie
auto-increment id, display name, and the 128-dimensional face descriptor
(coordinates modelled as rationals, the list length is irrelevant to the
logic).  The photoDataUrl and registeredAt columns are opaque to every
operation verified here and are omitted. -/
structure RegisteredFace where
  id : Nat
  name : String
  descriptor : List ℚ
deriving DecidableEq

/-- Mirrors an AttendanceRecord row of src/src/db/database.ts: faceId, name
and the event timestamp in milliseconds of the local clock (Date.getTime).
The confidence column (a derived display value that no attendance logic ever
reads back) and the optional photoDataUrl snapshot are omitted. -/
structure AttendanceRecord where
  faceId : Nat
  name : String
  timestamp : Int
deriving DecidableEq

/-- getLatestAttendanceByFaceId of src/src/db/database.ts: take the rows
whose faceId matches, sort them newest first with the comparator
(a, b) => b.timestamp - a.timestamp, and return the first row (undefined,
that is none, when there is no row).  The JavaScript sort is modelled by
insertionSort with the matching relation; the behaviour verified here
depends only on the output being a sorted permutation of the filtered rows. -/
def getLatestAttendanceByFaceId (db : List AttendanceRecord) (faceId : Nat) :
    Option AttendanceRecord :=
  (List.insertionSort (fun a b => b.timestamp ≤ a.timestamp)
    (db.filter (fun r => r.faceId == faceId))).head?

/-- Length of one local calendar day in milliseconds.  Local time is
modelled as a linear millisecond clock with uniform days, so the
setHours(0,0,0,0) call of the source is flooring to a multiple of dayMs. -/
def dayMs : Int := 86400000

/-- Local midnight of the day containing t: the dayStart computation of
hasAttendanceForFaceOnDate in src/src/db/database.ts. -/
def dayStartMs (t : Int) : Int := dayMs * (t.fdiv dayMs)

/-- hasAttendanceForFaceOnDate of src/src/db/database.ts: the Dexie query
on the compound [faceId+timestamp] index asking whether some record of this
faceId has dayStart <= timestamp < dayStart + one day (lower bound
inclusive, upper bound exclusive, exactly the between(..., true, false)
call of the source). -/
def hasAttendanceForFaceOnDate (db : List AttendanceRecord) (faceId : Nat)
    (dateMs : Int) : Bool :=
  db.any (fun r => r.faceId == faceId
    && decide (dayStartMs dateMs ≤ r.timestamp)
    && decide (r.timestamp < dayStartMs dateMs + dayMs))

/-- Squared Euclidean distance between two descriptors.  The source compares
Euclidean distances (Real.sqrt of this value); the squared form keeps the
definitions computable and the bridging lemmas below transfer every
comparison to the distance scale. -/
def distSq (a b : List ℚ) : ℚ :=
  ((a.zip b).map (fun p => (p.1 - p.2) * (p.1 - p.2))).sum

/-- One gallery identity of the face matcher.  loadFaces
(src/src/components/FaceAttendance.tsx) builds a
faceapi.LabeledFaceDescriptors whose label is the string "id:name" (id of
the group's first enrollment, normalized name) and whose descriptor list is
the group's descriptors; detectLoop splits the label back into exactly
these two components, so the label is kept structured here. -/
structure LabeledDescriptors where
  faceId : Nat
  name : String
  descriptors : List (List ℚ)
deriving DecidableEq

/-- Result of one matcher query: the matched identity (none models the
"unknown" label) together with the squared distance of the best gallery
identity.  Corresponds to faceapi.FaceMatch, whose distance field is
Real.sqrt scoreSq. -/
structure FaceMatch where
  label : Option (Nat × String)
  scoreSq : ℚ
deriving DecidableEq

/-- Modelled from the spec: the FaceMatcher implementation lives in the
external @vladmandic/face-api package and is not part of this repository's
sources, so the identity score follows the spec's words - the score of an
identity is the minimum Euclidean distance from the query to the identity's
vectors.  This function returns the square of that score; minima commute
with Real.sqrt because sqrt is monotone (see the lemmas below).  The empty
descriptor list never occurs (every group built by loadFaces carries at
least one descriptor); it is mapped to 0. -/
def identityScoreSq (q : List ℚ) : List (List ℚ) → ℚ
  | [] => 0
  | [d] => distSq q d
  | d :: rest => min (distSq q d) (identityScoreSq q rest)

/-- Modelled from the spec: among all identities select the one with the
globally smallest score, the first one on ties.  Returns the identity's id,
its name and the squared score, or none for an empty gallery. -/
def bestMatchAux (q : List ℚ) : List LabeledDescriptors → Option (Nat × String × ℚ)
  | [] => none
  | ld :: rest =>
    match bestMatchAux q rest with
    | none => some (ld.faceId, ld.name, identityScoreSq q ld.descriptors)
    | some (f, n, s') =>
      if s' < identityScoreSq q ld.descriptors then some (f, n, s')
      else some (ld.faceId, ld.name, identityScoreSq q ld.descriptors)

/-- Square of the 0.45 distance threshold (MATCH_THRESHOLD in
src/src/components/FaceAttendance.tsx): comparing squared distances with
81/400 is equivalent to comparing distances with 0.45 (lemma
sqrt_le_threshold_iff below). -/
def MATCH_THRESHOLD_SQ : ℚ := mkRat 81 400

/-- Modelled from the spec: findBestMatch of the external FaceMatcher.  If
the best identity's score d_min satisfies d_min <= threshold the result is
that identity, otherwise the label is "unknown"; either way the result
carries the best distance, so the confidence stays available for
diagnostics.  On the squared scale the decision rule reads
scoreSq <= thresholdSq.  The source never constructs a matcher over an
empty gallery (loadFaces only builds one when faces exist); per the spec an
empty gallery yields "unknown" with confidence 0, that is distance 1. -/
def findBestMatch (thresholdSq : ℚ) (lds : List LabeledDescriptors)
    (q : List ℚ) : FaceMatch :=
  match bestMatchAux q lds with
  | none => { label := none, scoreSq := 1 }
  | some (f, n, s) =>
    if s ≤ thresholdSq then { label := some (f, n), scoreSq := s }
    else { label := none, scoreSq := s }

/-- Square of the distance bound equivalent to the confidence cutoff of the
source: detectLoop acts only when
confidence = Math.round((1 - distance) * 100) >= AUTO_MARK_CONFIDENCE (55),
which holds exactly when distance <= 0.455, that is squared distance
<= 8281/40000 (lemma confidence_cutoff_iff below). -/
def AUTO_MARK_SQ : ℚ := mkRat 8281 40000

/-- ATTENDANCE_COOLDOWN_MS of src/src/components/FaceAttendance.tsx. -/
def ATTENDANCE_COOLDOWN_MS : Int := 10000

/-- Lookup in the in-memory lastAttendanceRef map:
lastAttendanceRef.current.get(key) || 0 - a missing key (and a stored 0)
yields 0. -/
def lookupLast (cache : List (String × Int)) (k : String) : Int :=
  match cache.find? (fun p => p.1 == k) with
  | some p => p.2
  | none => 0

/-- Map.set semantics of the lastAttendanceRef cache: overwrite the value
of an existing key in place, otherwise append the new binding. -/
def mapSet (m : List (String × Int)) (k : String) (v : Int) :
    List (String × Int) :=
  match m with
  | [] => [(k, v)]
  | p :: rest => if p.1 == k then (k, v) :: rest else p :: mapSet rest k v

/-- getAttendanceBlockReason of src/src/components/FaceAttendance.tsx: deny
with the cooldown message when the in-memory cache entry (missing entries
default to 0) or the latest persisted record for this face is younger than
ATTENDANCE_COOLDOWN_MS; otherwise deny with the daily message when the
store already holds a record for this face on the day containing now;
otherwise allow (none). -/
def getAttendanceBlockReason (cache : List (String × Int))
    (db : List AttendanceRecord) (faceId : Nat) (nowMs : Int) : Option String :=
  if nowMs - lookupLast cache (toString faceId) < ATTENDANCE_COOLDOWN_MS then
    some "Cooldown active (10s)"
  else
    match getLatestAttendanceByFaceId db faceId with
    | some latestRecord =>
      if nowMs - latestRecord.timestamp < ATTENDANCE_COOLDOWN_MS then
        some "Cooldown active (10s)"
      else if hasAttendanceForFaceOnDate db faceId nowMs then
        some "Already marked today"
      else none
    | none =>
      if hasAttendanceForFaceOnDate db faceId nowMs then
        some "Already marked today"
      else none

/-- Component state of FaceAttendance touched by the scanning loop:
isPausedRef, the lastAttendanceRef cooldown cache, the recentAttendance
list shown in the sidebar (name and time), the attendancePopup overlay, the
persisted attendance table, and the currentDetection diagnostic string. -/
structure ScanState where
  isPaused : Bool
  lastAttendance : List (String × Int)
  recentAttendance : List (String × Int)
  attendancePopup : Option String
  attendanceDb : List AttendanceRecord
  currentDetection : Option String
deriving DecidableEq

/-- The recent-attendance update of recordAttendance
(src/src/components/FaceAttendance.tsx): prepend the new entry and keep
only the first 9 entries of the previous list. -/
def pushRecent (prev : List (String × Int)) (e : String × Int) :
    List (String × Int) :=
  e :: prev.take 9

/-- recordAttendance of src/src/components/FaceAttendance.tsx,
parametrised by the outcome of the awaited addAttendance call.  When the
persist succeeds the record is appended to the store and then the cooldown
cache, the recent list, the pause flag and the popup are updated.  When
addAttendance rejects, the await throws before any of those lines runs, the
exception is absorbed by the try/catch of detectLoop, and the state is
untouched. -/
def recordAttendance (persistOk : Bool) (st : ScanState) (faceId : Nat)
    (name : String) (nowMs : Int) : ScanState :=
  if persistOk then
    { st with
      attendanceDb :=
        st.attendanceDb ++ [{ faceId := faceId, name := name, timestamp := nowMs }]
      lastAttendance := mapSet st.lastAttendance (toString faceId) nowMs
      recentAttendance := pushRecent st.recentAttendance (name, nowMs)
      isPaused := true
      attendancePopup := some name }
  else st

/-- JavaScript word characters as used by the regular expression of
detectLoop that capitalizes the display name. -/
def isWordChar (c : Char) : Bool := c.isAlphanum || c == '_'

/-- Character-list worker for capitalizeWords; the Bool argument records
whether the previous character was a word character. -/
def capitalizeChars : List Char → Bool → List Char
  | [], _ => []
  | c :: rest, prevIsWord =>
    (if isWordChar c && !prevIsWord then c.toUpper else c)
      :: capitalizeChars rest (isWordChar c)

/-- The display-name capitalization of detectLoop:
rawName.replace(word-boundary-word-character, its upper case), that is
upper-case every word character that does not follow a word character. -/
def capitalizeWords (s : String) : String := ⟨capitalizeChars s.data false⟩

/-- Body of the per-detection work of detectLoop
(src/src/components/FaceAttendance.tsx lines 295-361), for one query
descriptor: run the matcher; on an unknown label only the diagnostic
changes; on a recognized label with confidence below the cutoff only the
diagnostic changes; otherwise consult getAttendanceBlockReason and either
show the block reason or record attendance.  The canvas drawing and the
expression emoji have no effect on the verified state and are omitted. -/
def processDetection (persistOk : Bool) (lds : List LabeledDescriptors)
    (nowMs : Int) (st : ScanState) (q : List ℚ) : ScanState :=
  let m := findBestMatch MATCH_THRESHOLD_SQ lds q
  match m.label with
  | some (faceId, rawName) =>
    if m.scoreSq ≤ AUTO_MARK_SQ then
      match getAttendanceBlockReason st.lastAttendance st.attendanceDb faceId nowMs with
      | some reason =>
        { st with
          currentDetection := some (capitalizeWords rawName ++ " - " ++ reason) }
      | none =>
        recordAttendance persistOk
          { st with
            currentDetection := some ("Recognized: " ++ capitalizeWords rawName) }
          faceId (capitalizeWords rawName) nowMs
    else
      { st with
        currentDetection := some ("Low confidence for " ++ capitalizeWords rawName) }
  | none => { st with currentDetection := some "Unknown face detected" }

/-- One tick of detectLoop: while isPausedRef is set the loop returns
before any detection or matching work (it only reschedules itself); with no
detections the diagnostic is cleared; otherwise every detection of the
frame is processed in order. -/
def detectTick (persistOk : Bool) (lds : List LabeledDescriptors)
    (nowMs : Int) (st : ScanState) (qs : List (List ℚ)) : ScanState :=
  if st.isPaused then st
  else if qs.isEmpty then { st with currentDetection := none }
  else qs.foldl (processDetection persistOk lds nowMs) st

/-- Operator acknowledgment: both the Enter-key handler and the overlay
click of FaceAttendance clear the popup and unpause scanning, and do
nothing when no popup is shown. -/
def acknowledge (st : ScanState) : ScanState :=
  match st.attendancePopup with
  | some _ => { st with attendancePopup := none, isPaused := false }
  | none => st

/-- Character-list model of the JavaScript String.prototype.trim call used
on display names: drop whitespace from both ends. -/
def jsTrim (cs : List Char) : List Char :=
  ((cs.dropWhile Char.isWhitespace).reverse.dropWhile Char.isWhitespace).reverse

/-- The grouping key of loadFaces: face.name.toLowerCase().trim().
Implemented over the character list so that concrete instances reduce in
the kernel. -/
def normalizeName (s : String) : String := ⟨jsTrim (s.data.map Char.toLower)⟩

/-- One entry of the descriptorsByName map built by loadFaces: the
normalized-name key, the id of the group's first enrollment, and the
descriptors pushed so far. -/
structure FaceGroup where
  key : String
  id : Nat
  descriptors : List (List ℚ)
deriving DecidableEq

/-- One step of the grouping loop of loadFaces: if the normalized name is
already a key, push the descriptor onto that entry (JavaScript Map
preserves insertion order); otherwise append a fresh entry whose id is this
face's id. -/
def insertFace (groups : List FaceGroup) (f : RegisteredFace) : List FaceGroup :=
  match groups with
  | [] => [{ key := normalizeName f.name, id := f.id, descriptors := [f.descriptor] }]
  | g :: rest =>
    if g.key == normalizeName f.name then
      { g with descriptors := g.descriptors ++ [f.descriptor] } :: rest
    else g :: insertFace rest f

/-- The descriptorsByName map of loadFaces after processing all faces in
order. -/
def groupFaces (faces : List RegisteredFace) : List FaceGroup :=
  faces.foldl insertFace []

/-- The labeled descriptors handed to the FaceMatcher constructor by
loadFaces: one identity per group, carrying the group's id, normalized name
and every descriptor of the group. -/
def loadFacesMatcher (faces : List RegisteredFace) : List LabeledDescriptors :=
  (groupFaces faces).map
    (fun g => { faceId := g.id, name := g.key, descriptors := g.descriptors })

/-- Outcome of startScanning visible to the claims: the error banner and
whether the scanning session (camera plus detect loop) was started. -/
structure SessionStart where
  error : Option String
  scanningStarted : Bool
deriving DecidableEq

/-- Control flow of startScanning (src/src/components/FaceAttendance.tsx
lines 164-208): with zero registered faces it sets the no-gallery error and
returns before the camera is opened or the detect loop is scheduled; with a
non-empty gallery it starts scanning when the camera initialises (cameraOk
abstracts the getUserMedia call), and otherwise surfaces the camera error. -/
def startScanning (registeredFaces : List RegisteredFace) (cameraOk : Bool) :
    SessionStart :=
  if registeredFaces.length == 0 then
    { error := some "No faces registered yet. Please register at least one face first."
      scanningStarted := false }
  else if cameraOk then { error := none, scanningStarted := true }
  else { error := some "Failed to start camera", scanningStarted := false }

/-! Helper lemmas about the matcher: the squared score is a nonnegative
minimum, and the squared comparisons used by the definitions agree with the
distance comparisons of the source. -/

theorem identityScoreSq_singleton (q d : List ℚ) :
    identityScoreSq q [d] = distSq q d := rfl

theorem identityScoreSq_cons₂ (q d e : List ℚ) (rest : List (List ℚ)) :
    identityScoreSq q (d :: e :: rest)
      = min (distSq q d) (identityScoreSq q (e :: rest)) := rfl

theorem distSq_nonneg (a b : List ℚ) : 0 ≤ distSq a b := by
  unfold distSq
  apply List.sum_nonneg
  intro x hx
  simp only [List.mem_map] at hx
  obtain ⟨p, -, rfl⟩ := hx
  exact mul_self_nonneg _

theorem identityScoreSq_nonneg (q : List ℚ) (ds : List (List ℚ)) :
    0 ≤ identityScoreSq q ds := by
  induction ds with
  | nil => simp [identityScoreSq]
  | cons d rest ih =>
    cases rest with
    | nil => simpa [identityScoreSq] using distSq_nonneg q d
    | cons e rest' =>
      rw [identityScoreSq_cons₂]
      exact le_min (distSq_nonneg q d) ih

theorem identityScoreSq_le (q : List ℚ) (ds : List (List ℚ)) :
    ∀ d ∈ ds, identityScoreSq q ds ≤ distSq q d := by
  induction ds with
  | nil => intro d hd; cases hd
  | cons d rest ih =>
    intro e he
    cases rest with
    | nil =>
      rw [List.mem_singleton] at he
      subst he
      simp [identityScoreSq]
    | cons d2 rest' =>
      rw [identityScoreSq_cons₂]
      rcases List.mem_cons.mp he with rfl | hmem
      · exact min_le_left _ _
      · exact le_trans (min_le_right _ _) (ih e hmem)

theorem identityScoreSq_attained (q : List ℚ) (ds : List (List ℚ)) (h : ds ≠ []) :
    ∃ d ∈ ds, identityScoreSq q ds = distSq q d := by
  induction ds with
  | nil => cases h rfl
  | cons d rest ih =>
    cases rest with
    | nil => exact ⟨d, List.mem_singleton_self d, by simp [identityScoreSq]⟩
    | cons d2 rest' =>
      obtain ⟨e, he, heq⟩ := ih (by simp)
      rcases le_total (distSq q d) (identityScoreSq q (d2 :: rest')) with hle | hle
      · exact ⟨d, List.mem_cons_self d _, by rw [identityScoreSq_cons₂, min_eq_left hle]⟩
      · refine ⟨e, List.mem_cons_of_mem d he, ?_⟩
        rw [identityScoreSq_cons₂, min_eq_right hle, heq]

theorem bestMatchAux_isSome (q : List ℚ) (ld : LabeledDescriptors)
    (rest : List LabeledDescriptors) :
    ∃ f n s, bestMatchAux q (ld :: rest) = some (f, n, s) := by
  rw [bestMatchAux]
  cases hrest : bestMatchAux q rest with
  | none => exact ⟨_, _, _, rfl⟩
  | some v =>
    obtain ⟨f, n, s'⟩ := v
    dsimp only
    by_cases hlt : s' < identityScoreSq q ld.descriptors
    · exact ⟨f, n, s', by rw [if_pos hlt]⟩
    · exact ⟨_, _, _, by rw [if_neg hlt]⟩

theorem bestMatchAux_spec (q : List ℚ) (lds : List LabeledDescriptors)
    (f : Nat) (n : String) (s : ℚ)
    (h : bestMatchAux q lds = some (f, n, s)) :
    (∃ ld ∈ lds, ld.faceId = f ∧ ld.name = n ∧ s = identityScoreSq q ld.descriptors)
    ∧ ∀ ld ∈ lds, s ≤ identityScoreSq q ld.descriptors := by
  induction lds generalizing f n s with
  | nil => cases h
  | cons ld rest ih =>
    rw [bestMatchAux] at h
    cases hrest : bestMatchAux q rest with
    | none =>
      rw [hrest] at h
      dsimp only at h
      simp only [Option.some.injEq, Prod.mk.injEq] at h
      obtain ⟨rfl, rfl, rfl⟩ := h
      have hrest' : rest = [] := by
        cases rest with
        | nil => rfl
        | cons ld2 rest2 =>
          obtain ⟨f', n', s', hsome⟩ := bestMatchAux_isSome q ld2 rest2
          rw [hsome] at hrest
          cases hrest
      subst hrest'
      refine ⟨⟨ld, List.mem_singleton_self ld, rfl, rfl, rfl⟩, ?_⟩
      intro ld' hld'
      rw [List.mem_singleton] at hld'
      subst hld'
      exact le_refl _
    | some v =>
      obtain ⟨f', n', s'⟩ := v
      rw [hrest] at h
      dsimp only at h
      obtain ⟨⟨ld₀, hld₀, hfid, hname, hs'⟩, hall⟩ := ih f' n' s' hrest
      by_cases hlt : s' < identityScoreSq q ld.descriptors
      · rw [if_pos hlt] at h
        simp only [Option.some.injEq, Prod.mk.injEq] at h
        obtain ⟨rfl, rfl, rfl⟩ := h
        refine ⟨⟨ld₀, List.mem_cons_of_mem ld hld₀, hfid, hname, hs'⟩, ?_⟩
        intro ld' hld'
        rcases List.mem_cons.mp hld' with rfl | hmem
        · exact le_of_lt hlt
        · exact hall ld' hmem
      · rw [if_neg hlt] at h
        simp only [Option.some.injEq, Prod.mk.injEq] at h
        obtain ⟨rfl, rfl, rfl⟩ := h
        push_neg at hlt
        refine ⟨⟨ld, List.mem_cons_self ld rest, rfl, rfl, rfl⟩, ?_⟩
        intro ld' hld'
        rcases List.mem_cons.mp hld' with rfl | hmem
        · exact le_refl _
        · exact le_trans hlt (hall ld' hmem)

theorem bestMatchAux_nonneg (q : List ℚ) (lds : List LabeledDescriptors)
    (f : Nat) (n : String) (s : ℚ)
    (h : bestMatchAux q lds = some (f, n, s)) : 0 ≤ s := by
  obtain ⟨⟨ld, -, -, -, hs⟩, -⟩ := bestMatchAux_spec q lds f n s h
  rw [hs]
  exact identityScoreSq_nonneg q ld.descriptors

theorem findBestMatch_scoreSq (thresholdSq : ℚ) (lds : List LabeledDescriptors)
    (q : List ℚ) (f : Nat) (n : String) (s : ℚ)
    (h : bestMatchAux q lds = some (f, n, s)) :
    (findBestMatch thresholdSq lds q).scoreSq = s := by
  unfold findBestMatch
  rw [h]
  dsimp only
  by_cases hle : s ≤ thresholdSq
  · rw [if_pos hle]
  · rw [if_neg hle]

theorem rat_sqrt_le_iff (s : ℚ) (c : ℝ) (hc : 0 ≤ c) :
    Real.sqrt (s : ℝ) ≤ c ↔ (s : ℝ) ≤ c ^ 2 := by
  rw [show c = Real.sqrt (c ^ 2) by rw [Real.sqrt_sq hc],
    Real.sqrt_le_sqrt_iff (by positivity), Real.sqrt_sq hc]

theorem match_threshold_sq_val : MATCH_THRESHOLD_SQ = (9 / 20 : ℚ) ^ 2 := by
  norm_num [MATCH_THRESHOLD_SQ, mkRat, Rat.normalize]

theorem auto_mark_sq_val : AUTO_MARK_SQ = (91 / 200 : ℚ) ^ 2 := by
  norm_num [AUTO_MARK_SQ, mkRat, Rat.normalize]

/-- The squared-scale acceptance test of findBestMatch agrees with the
source's distance <= 0.45 comparison. -/
theorem sqrt_le_threshold_iff (s : ℚ) :
    Real.sqrt (s : ℝ) ≤ 45 / 100 ↔ s ≤ MATCH_THRESHOLD_SQ := by
  rw [rat_sqrt_le_iff s (45 / 100) (by norm_num)]
  rw [show ((45 : ℝ) / 100) ^ 2 = ((9 / 20 : ℚ) ^ 2 : ℚ) by push_cast; norm_num]
  rw [← match_threshold_sq_val]
  exact_mod_cast Iff.rfl

/-- The squared-scale cutoff test of processDetection agrees with the
source's confidence >= 55 comparison, where
confidence = Math.round((1 - distance) * 100) is modelled as the floor of
(1 - distance) * 100 + 1/2 (JavaScript Math.round rounds half up). -/
theorem confidence_cutoff_iff (s : ℚ) :
    (55 : ℤ) ≤ ⌊(1 - Real.sqrt (s : ℝ)) * 100 + 1 / 2⌋ ↔ s ≤ AUTO_MARK_SQ := by
  rw [Int.le_floor]
  have h1 : ((55 : ℤ) : ℝ) ≤ (1 - Real.sqrt (s : ℝ)) * 100 + 1 / 2
      ↔ Real.sqrt (s : ℝ) ≤ 91 / 200 := by
    constructor
    · intro h
      push_cast at h
      linarith
    · intro h
      push_cast
      linarith
  rw [h1, rat_sqrt_le_iff s (91 / 200) (by norm_num)]
  rw [show ((91 : ℝ) / 200) ^ 2 = ((91 / 200 : ℚ) ^ 2 : ℚ) by push_cast; norm_num]
  rw [← auto_mark_sq_val]
  exact_mod_cast Iff.rfl

/-! Helper lemmas about the persistence helpers of src/src/db/database.ts. -/

theorem getLatest_none_iff (db : List AttendanceRecord) (faceId : Nat) :
    getLatestAttendanceByFaceId db faceId = none ↔ ∀ r ∈ db, r.faceId ≠ faceId := by
  unfold getLatestAttendanceByFaceId
  rw [List.head?_eq_none_iff]
  constructor
  · intro h r hr hfid
    have hperm := List.perm_insertionSort
      (fun a b : AttendanceRecord => b.timestamp ≤ a.timestamp)
      (db.filter (fun r => r.faceId == faceId))
    rw [h] at hperm
    have hmem : r ∈ db.filter (fun r => r.faceId == faceId) :=
      List.mem_filter.mpr ⟨hr, by simp [hfid]⟩
    rw [← hperm.mem_iff] at hmem
    cases hmem
  · intro h
    have hfil : db.filter (fun r => r.faceId == faceId) = [] := by
      rw [List.filter_eq_nil_iff]
      intro r hr
      simpa using h r hr
    rw [hfil]
    rfl

theorem getLatest_some_spec (db : List AttendanceRecord) (faceId : Nat)
    (r : AttendanceRecord) (h : getLatestAttendanceByFaceId db faceId = some r) :
    r ∈ db ∧ r.faceId = faceId
      ∧ ∀ r' ∈ db, r'.faceId = faceId → r'.timestamp ≤ r.timestamp := by
  unfold getLatestAttendanceByFaceId at h
  haveI i1 : IsTotal AttendanceRecord (fun a b => b.timestamp ≤ a.timestamp) :=
    ⟨fun a b => le_total b.timestamp a.timestamp⟩
  haveI i2 : IsTrans AttendanceRecord (fun a b => b.timestamp ≤ a.timestamp) :=
    ⟨fun _ _ _ h1 h2 => le_trans h2 h1⟩
  have hperm := List.perm_insertionSort
    (fun a b : AttendanceRecord => b.timestamp ≤ a.timestamp)
    (db.filter (fun r => r.faceId == faceId))
  have hsorted := List.sorted_insertionSort
    (fun a b : AttendanceRecord => b.timestamp ≤ a.timestamp)
    (db.filter (fun r => r.faceId == faceId))
  cases hs : List.insertionSort (fun a b : AttendanceRecord => b.timestamp ≤ a.timestamp)
      (db.filter (fun r => r.faceId == faceId)) with
  | nil => rw [hs] at h; cases h
  | cons a tail =>
    rw [hs] at h
    simp only [List.head?_cons, Option.some.injEq] at h
    subst h
    rw [hs] at hperm hsorted
    have hrmem : a ∈ db.filter (fun x => x.faceId == faceId) :=
      hperm.mem_iff.mp (List.mem_cons_self a tail)
    obtain ⟨hrdb, hrfid⟩ := List.mem_filter.mp hrmem
    refine ⟨hrdb, by simpa using hrfid, ?_⟩
    intro r' hr' hfid'
    have hr'mem : r' ∈ db.filter (fun x => x.faceId == faceId) :=
      List.mem_filter.mpr ⟨hr', by simp [hfid']⟩
    rw [← hperm.mem_iff] at hr'mem
    rcases List.mem_cons.mp hr'mem with rfl | htail
    · exact le_refl _
    · exact List.rel_of_sorted_cons hsorted r' htail

/-! Helper lemmas about the scanning state machine. -/

theorem recordAttendance_fail (st : ScanState) (faceId : Nat) (name : String)
    (nowMs : Int) : recordAttendance false st faceId name nowMs = st := by
  simp [recordAttendance]

theorem findBestMatch_pos (thresholdSq : ℚ) (lds : List LabeledDescriptors)
    (q : List ℚ) (f : Nat) (n : String) (s : ℚ)
    (h : bestMatchAux q lds = some (f, n, s)) (hs : s ≤ thresholdSq) :
    findBestMatch thresholdSq lds q = { label := some (f, n), scoreSq := s } := by
  unfold findBestMatch
  rw [h]
  dsimp only
  rw [if_pos hs]

theorem findBestMatch_neg (thresholdSq : ℚ) (lds : List LabeledDescriptors)
    (q : List ℚ) (f : Nat) (n : String) (s : ℚ)
    (h : bestMatchAux q lds = some (f, n, s)) (hs : ¬ s ≤ thresholdSq) :
    findBestMatch thresholdSq lds q = { label := none, scoreSq := s } := by
  unfold findBestMatch
  rw [h]
  dsimp only
  rw [if_neg hs]

/-- Whenever the matcher result carries a positive label, that label is
exactly the identity selected by bestMatchAux (the globally best one). -/
theorem findBestMatch_label (thresholdSq : ℚ) (lds : List LabeledDescriptors)
    (q : List ℚ) (f : Nat) (n : String) (s : ℚ)
    (h : bestMatchAux q lds = some (f, n, s)) :
    ∀ p, (findBestMatch thresholdSq lds q).label = some p → p = (f, n) := by
  intro p hp
  by_cases hs : s ≤ thresholdSq
  · rw [findBestMatch_pos thresholdSq lds q f n s h hs] at hp
    dsimp only at hp
    rw [Option.some.injEq] at hp
    exact hp.symm
  · rw [findBestMatch_neg thresholdSq lds q f n s h hs] at hp
    cases hp

theorem processDetection_fail (lds : List LabeledDescriptors) (nowMs : Int)
    (st : ScanState) (q : List ℚ) :
    (processDetection false lds nowMs st q).isPaused = st.isPaused
    ∧ (processDetection false lds nowMs st q).lastAttendance = st.lastAttendance
    ∧ (processDetection false lds nowMs st q).attendanceDb = st.attendanceDb
    ∧ (processDetection false lds nowMs st q).attendancePopup = st.attendancePopup
    ∧ (processDetection false lds nowMs st q).recentAttendance = st.recentAttendance := by
  simp only [processDetection]
  generalize findBestMatch MATCH_THRESHOLD_SQ lds q = m
  obtain ⟨lab, s⟩ := m
  cases lab with
  | none => exact ⟨rfl, rfl, rfl, rfl, rfl⟩
  | some v =>
    obtain ⟨faceId, rawName⟩ := v
    dsimp only
    by_cases hc : s ≤ AUTO_MARK_SQ
    · rw [if_pos hc]
      generalize getAttendanceBlockReason st.lastAttendance st.attendanceDb faceId nowMs = b
      cases b with
      | some reason => exact ⟨rfl, rfl, rfl, rfl, rfl⟩
      | none =>
        rw [recordAttendance_fail]
        exact ⟨rfl, rfl, rfl, rfl, rfl⟩
    · rw [if_neg hc]
      exact ⟨rfl, rfl, rfl, rfl, rfl⟩

theorem foldl_processDetection_fail (lds : List LabeledDescriptors)
    (nowMs : Int) (qs : List (List ℚ)) (st : ScanState) :
    (qs.foldl (processDetection false lds nowMs) st).isPaused = st.isPaused
    ∧ (qs.foldl (processDetection false lds nowMs) st).lastAttendance = st.lastAttendance
    ∧ (qs.foldl (processDetection false lds nowMs) st).attendanceDb = st.attendanceDb
    ∧ (qs.foldl (processDetection false lds nowMs) st).attendancePopup = st.attendancePopup
    ∧ (qs.foldl (processDetection false lds nowMs) st).recentAttendance
        = st.recentAttendance := by
  induction qs generalizing st with
  | nil => exact ⟨rfl, rfl, rfl, rfl, rfl⟩
  | cons q rest ih =>
    rw [List.foldl_cons]
    obtain ⟨h1, h2, h3, h4, h5⟩ := processDetection_fail lds nowMs st q
    obtain ⟨g1, g2, g3, g4, g5⟩ := ih (processDetection false lds nowMs st q)
    exact ⟨g1.trans h1, g2.trans h2, g3.trans h3, g4.trans h4, g5.trans h5⟩

theorem detectTick_paused (persistOk : Bool) (lds : List LabeledDescriptors)
    (nowMs : Int) (st : ScanState) (qs : List (List ℚ))
    (hp : st.isPaused = true) :
    detectTick persistOk lds nowMs st qs = st := by
  unfold detectTick
  rw [hp]
  simp

theorem lookupLast_mapSet (m : List (String × Int)) (k : String) (v : Int) :
    lookupLast (mapSet m k v) k = v := by
  induction m with
  | nil => simp [mapSet, lookupLast]
  | cons p rest ih =>
    unfold mapSet
    by_cases hk : p.1 == k
    · rw [if_pos hk]
      simp [lookupLast]
    · rw [if_neg hk]
      unfold lookupLast
      rw [List.find?_cons_of_neg _ (by simpa using hk)]
      exact ih

theorem processDetection_empty_gallery (persistOk : Bool) (nowMs : Int)
    (st : ScanState) (q : List ℚ) :
    processDetection persistOk [] nowMs st q
      = { st with currentDetection := some "Unknown face detected" } := rfl

theorem foldl_processDetection_empty (persistOk : Bool) (nowMs : Int)
    (qs : List (List ℚ)) (st : ScanState) :
    (qs.foldl (processDetection persistOk [] nowMs) st).isPaused = st.isPaused
    ∧ (qs.foldl (processDetection persistOk [] nowMs) st).lastAttendance
        = st.lastAttendance
    ∧ (qs.foldl (processDetection persistOk [] nowMs) st).attendanceDb
        = st.attendanceDb := by
  induction qs generalizing st with
  | nil => exact ⟨rfl, rfl, rfl⟩
  | cons q rest ih =>
    rw [List.foldl_cons, processDetection_empty_gallery]
    exact ih _

/-! Helper lemmas about the loadFaces grouping. -/

theorem insertFace_key_mem (gs : List FaceGroup) (f : RegisteredFace) :
    ∃ e ∈ insertFace gs f,
      e.key = normalizeName f.name ∧ f.descriptor ∈ e.descriptors := by
  induction gs with
  | nil => exact ⟨_, List.mem_singleton_self _, rfl, by simp⟩
  | cons g rest ih =>
    unfold insertFace
    by_cases hk : g.key == normalizeName f.name
    · rw [if_pos hk]
      exact ⟨_, List.mem_cons_self _ _, by simpa using hk, by simp⟩
    · rw [if_neg hk]
      obtain ⟨e, he, hkey, hd⟩ := ih
      exact ⟨e, List.mem_cons_of_mem g he, hkey, hd⟩

theorem insertFace_preserve (gs : List FaceGroup) (f : RegisteredFace)
    (e : FaceGroup) (he : e ∈ gs) :
    ∃ e' ∈ insertFace gs f,
      e'.key = e.key ∧ ∀ d ∈ e.descriptors, d ∈ e'.descriptors := by
  induction gs with
  | nil => cases he
  | cons g rest ih =>
    unfold insertFace
    by_cases hk : g.key == normalizeName f.name
    · rw [if_pos hk]
      rcases List.mem_cons.mp he with rfl | hmem
      · exact ⟨_, List.mem_cons_self _ _, rfl, fun d hd => by simp [hd]⟩
      · exact ⟨e, List.mem_cons_of_mem _ hmem, rfl, fun d hd => hd⟩
    · rw [if_neg hk]
      rcases List.mem_cons.mp he with rfl | hmem
      · exact ⟨e, List.mem_cons_self _ _, rfl, fun d hd => hd⟩
      · obtain ⟨e', he', hkey, hsub⟩ := ih hmem
        exact ⟨e', List.mem_cons_of_mem _ he', hkey, hsub⟩

theorem insertFace_keys (gs : List FaceGroup) (f : RegisteredFace)
    (e : FaceGroup) (he : e ∈ insertFace gs f) :
    e.key = normalizeName f.name ∨ ∃ e₀ ∈ gs, e.key = e₀.key := by
  induction gs with
  | nil =>
    left
    unfold insertFace at he
    rw [List.mem_singleton] at he
    rw [he]
  | cons g rest ih =>
    unfold insertFace at he
    by_cases hk : g.key == normalizeName f.name
    · rw [if_pos hk] at he
      rcases List.mem_cons.mp he with rfl | hmem
      · exact Or.inr ⟨g, List.mem_cons_self g rest, rfl⟩
      · exact Or.inr ⟨e, List.mem_cons_of_mem g hmem, rfl⟩
    · rw [if_neg hk] at he
      rcases List.mem_cons.mp he with rfl | hmem
      · exact Or.inr ⟨e, List.mem_cons_self e rest, rfl⟩
      · rcases ih hmem with hleft | ⟨e₀, he₀, hkey⟩
        · exact Or.inl hleft
        · exact Or.inr ⟨e₀, List.mem_cons_of_mem g he₀, hkey⟩

theorem insertFace_nodup (gs : List FaceGroup) (f : RegisteredFace)
    (h : gs.Pairwise (fun a b => a.key ≠ b.key)) :
    (insertFace gs f).Pairwise (fun a b => a.key ≠ b.key) := by
  induction gs with
  | nil => simp [insertFace]
  | cons g rest ih =>
    rw [List.pairwise_cons] at h
    obtain ⟨hg, hrest⟩ := h
    unfold insertFace
    by_cases hk : g.key == normalizeName f.name
    · rw [if_pos hk]
      rw [List.pairwise_cons]
      exact ⟨fun b hb => hg b hb, hrest⟩
    · rw [if_neg hk]
      rw [List.pairwise_cons]
      refine ⟨?_, ih hrest⟩
      intro b hb
      rcases insertFace_keys rest f b hb with hbk | ⟨e₀, he₀, hbk⟩
      · rw [hbk]
        simpa using hk
      · rw [hbk]
        exact hg e₀ he₀

theorem pairwise_key_unique (gs : List FaceGroup)
    (h : gs.Pairwise (fun a b => a.key ≠ b.key)) :
    ∀ e ∈ gs, ∀ e' ∈ gs, e.key = e'.key → e = e' := by
  induction gs with
  | nil => intro e he; cases he
  | cons g rest ih =>
    rw [List.pairwise_cons] at h
    obtain ⟨hg, hrest⟩ := h
    intro e he e' he' hk
    rcases List.mem_cons.mp he with rfl | hme
    · rcases List.mem_cons.mp he' with rfl | hme'
      · rfl
      · exact absurd hk (hg e' hme')
    · rcases List.mem_cons.mp he' with rfl | hme'
      · exact absurd hk.symm (hg e hme)
      · exact ih hrest e hme e' hme' hk

theorem groupFaces_aux_nodup (faces : List RegisteredFace)
    (acc : List FaceGroup) (h : acc.Pairwise (fun a b => a.key ≠ b.key)) :
    (faces.foldl insertFace acc).Pairwise (fun a b => a.key ≠ b.key) := by
  induction faces generalizing acc with
  | nil => exact h
  | cons f rest ih =>
    rw [List.foldl_cons]
    exact ih _ (insertFace_nodup acc f h)

theorem groupFaces_aux_preserve (faces : List RegisteredFace)
    (acc : List FaceGroup) (e : FaceGroup) (he : e ∈ acc) :
    ∃ e' ∈ faces.foldl insertFace acc,
      e'.key = e.key ∧ ∀ d ∈ e.descriptors, d ∈ e'.descriptors := by
  induction faces generalizing acc e with
  | nil => exact ⟨e, he, rfl, fun d hd => hd⟩
  | cons f rest ih =>
    rw [List.foldl_cons]
    obtain ⟨e₁, he₁, hk₁, hsub₁⟩ := insertFace_preserve acc f e he
    obtain ⟨e₂, he₂, hk₂, hsub₂⟩ := ih (insertFace acc f) e₁ he₁
    exact ⟨e₂, he₂, hk₂.trans hk₁, fun d hd => hsub₂ d (hsub₁ d hd)⟩

theorem groupFaces_aux_mem (faces : List RegisteredFace)
    (acc : List FaceGroup) (f : RegisteredFace) (hf : f ∈ faces) :
    ∃ e ∈ faces.foldl insertFace acc,
      e.key = normalizeName f.name ∧ f.descriptor ∈ e.descriptors := by
  induction faces generalizing acc with
  | nil => cases hf
  | cons f0 rest ih =>
    rw [List.foldl_cons]
    rcases List.mem_cons.mp hf with rfl | hmem
    · obtain ⟨e, he, hk, hd⟩ := insertFace_key_mem acc f
      obtain ⟨e', he', hk', hsub⟩ := groupFaces_aux_preserve rest (insertFace acc f) e he
      exact ⟨e', he', hk'.trans hk, hsub _ hd⟩
    · exact ih (insertFace acc f0) hmem

theorem groupFaces_nodup (faces : List RegisteredFace) :
    (groupFaces faces).Pairwise (fun a b => a.key ≠ b.key) :=
  groupFaces_aux_nodup faces [] (List.Pairwise.nil)

/-! Helper lemmas about getAttendanceBlockReason. -/

theorem cooldown_first_pass (cache : List (String × Int)) (faceId : Nat)
    (nowMs : Int) (hnow : ATTENDANCE_COOLDOWN_MS ≤ nowMs)
    (h1 : ∀ p, cache.find? (fun q => q.1 == toString faceId) = some p
        → ATTENDANCE_COOLDOWN_MS ≤ nowMs - p.2) :
    ¬ nowMs - lookupLast cache (toString faceId) < ATTENDANCE_COOLDOWN_MS := by
  unfold lookupLast
  cases hfind : cache.find? (fun p => p.1 == toString faceId) with
  | none =>
    dsimp only
    omega
  | some p =>
    dsimp only
    have := h1 p hfind
    omega

/-- With the cooldown rule passing (for the cache and for the latest
persisted record), the eligibility check reduces to the daily-uniqueness
query against the store. -/
theorem blockReason_cooldown_passed (cache : List (String × Int))
    (db : List AttendanceRecord) (faceId : Nat) (nowMs : Int)
    (hnow : ATTENDANCE_COOLDOWN_MS ≤ nowMs)
    (hcache : ∀ p, cache.find? (fun q => q.1 == toString faceId) = some p
        → ATTENDANCE_COOLDOWN_MS ≤ nowMs - p.2)
    (hlatest : ∀ r, getLatestAttendanceByFaceId db faceId = some r
        → ATTENDANCE_COOLDOWN_MS ≤ nowMs - r.timestamp) :
    getAttendanceBlockReason cache db faceId nowMs
      = if hasAttendanceForFaceOnDate db faceId nowMs then
          some "Already marked today"
        else none := by
  unfold getAttendanceBlockReason
  rw [if_neg (cooldown_first_pass cache faceId nowMs hnow hcache)]
  cases hgl : getLatestAttendanceByFaceId db faceId with
  | none => rfl
  | some r =>
    dsimp only
    rw [if_neg (by have := hlatest r hgl; omega)]

/-- The Boolean daily-uniqueness query holds exactly when the store has a
record of this identity inside the day containing now. -/
theorem hasAttendance_iff (db : List AttendanceRecord) (faceId : Nat)
    (nowMs : Int) :
    hasAttendanceForFaceOnDate db faceId nowMs = true
      ↔ ∃ r ∈ db, r.faceId = faceId
          ∧ dayStartMs nowMs ≤ r.timestamp
          ∧ r.timestamp < dayStartMs nowMs + dayMs := by
  unfold hasAttendanceForFaceOnDate
  rw [List.any_eq_true]
  constructor
  · rintro ⟨r, hr, hb⟩
    simp only [Bool.and_eq_true, beq_iff_eq, decide_eq_true_eq] at hb
    exact ⟨r, hr, hb.1.1, hb.1.2, hb.2⟩
  · rintro ⟨r, hr, h1, h2, h3⟩
    exact ⟨r, hr, by simp [h1, h2, h3]⟩

/-- Immediately after a successful recordAttendance the cooldown cache
blocks the same identity again (the fresh cache entry equals now). -/
theorem blockReason_just_recorded (cache : List (String × Int))
    (db : List AttendanceRecord) (faceId : Nat) (nowMs : Int) :
    getAttendanceBlockReason (mapSet cache (toString faceId) nowMs) db faceId nowMs
      = some "Cooldown active (10s)" := by
  unfold getAttendanceBlockReason
  rw [lookupLast_mapSet]
  rw [if_pos (by unfold ATTENDANCE_COOLDOWN_MS; omega)]

/-! Helper lemmas about single detection steps and acknowledgment. -/

theorem acknowledge_fields (st : ScanState)
    (hpop : st.attendancePopup.isSome = true) :
    (acknowledge st).isPaused = false
    ∧ (acknowledge st).lastAttendance = st.lastAttendance
    ∧ (acknowledge st).attendanceDb = st.attendanceDb
    ∧ (acknowledge st).recentAttendance = st.recentAttendance
    ∧ (acknowledge st).attendancePopup = none := by
  unfold acknowledge
  cases hp : st.attendancePopup with
  | none =>
    rw [hp] at hpop
    cases hpop
  | some nm => exact ⟨rfl, rfl, rfl, rfl, rfl⟩

theorem processDetection_success (lds : List LabeledDescriptors) (nowMs : Int)
    (st : ScanState) (q : List ℚ) (f : Nat) (n : String) (s : ℚ)
    (hbest : bestMatchAux q lds = some (f, n, s)) (hth : s ≤ MATCH_THRESHOLD_SQ)
    (hauto : s ≤ AUTO_MARK_SQ)
    (hblock : getAttendanceBlockReason st.lastAttendance st.attendanceDb f nowMs
        = none) :
    processDetection true lds nowMs st q
      = recordAttendance true
          { st with currentDetection := some ("Recognized: " ++ capitalizeWords n) }
          f (capitalizeWords n) nowMs := by
  have hfb := findBestMatch_pos MATCH_THRESHOLD_SQ lds q f n s hbest hth
  simp only [processDetection, hfb]
  rw [if_pos hauto, hblock]

theorem processDetection_blocked (lds : List LabeledDescriptors) (nowMs : Int)
    (st : ScanState) (q : List ℚ) (f : Nat) (n : String) (s : ℚ) (reason : String)
    (hbest : bestMatchAux q lds = some (f, n, s)) (hth : s ≤ MATCH_THRESHOLD_SQ)
    (hauto : s ≤ AUTO_MARK_SQ)
    (hblock : getAttendanceBlockReason st.lastAttendance st.attendanceDb f nowMs
        = some reason) :
    processDetection true lds nowMs st q
      = { st with currentDetection := some (capitalizeWords n ++ " - " ++ reason) } := by
  have hfb := findBestMatch_pos MATCH_THRESHOLD_SQ lds q f n s hbest hth
  simp only [processDetection, hfb]
  rw [if_pos hauto, hblock]

/-! Claim theorems. -/

/-- C5: while the controller is paused (AwaitingAck) every tick ignores its
query vectors entirely - the state, and in particular the store, is
untouched over any number of ticks; the operator acknowledgment clears the
popup and unpauses; and after acknowledgment the next positive, eligible
match appends exactly one attendance event - even when the same face
appears twice in the next frame, the second detection is stopped by the
fresh cooldown entry, so exactly one event results. -/
theorem claim_C5 :
    (∀ (persistOk : Bool) (lds : List LabeledDescriptors) (nowMs : Int)
        (st : ScanState) (qs : List (List ℚ)),
        st.isPaused = true → detectTick persistOk lds nowMs st qs = st)
    ∧ (∀ (persistOk : Bool) (lds : List LabeledDescriptors) (nowMs : Int)
        (st : ScanState) (qss : List (List (List ℚ))),
        st.isPaused = true →
        qss.foldl (detectTick persistOk lds nowMs) st = st)
    ∧ (∀ st : ScanState, st.attendancePopup.isSome = true →
        (acknowledge st).isPaused = false ∧ (acknowledge st).attendancePopup = none)
    ∧ (∀ (lds : List LabeledDescriptors) (nowMs : Int) (st : ScanState)
        (q : List ℚ) (f : Nat) (n : String) (s : ℚ),
        st.attendancePopup.isSome = true →
        bestMatchAux q lds = some (f, n, s) →
        s ≤ MATCH_THRESHOLD_SQ → s ≤ AUTO_MARK_SQ →
        getAttendanceBlockReason st.lastAttendance st.attendanceDb f nowMs = none →
        (detectTick true lds nowMs (acknowledge st) [q]).attendanceDb.length
            = st.attendanceDb.length + 1
        ∧ (detectTick true lds nowMs (acknowledge st) [q, q]).attendanceDb.length
            = st.attendanceDb.length + 1) := by
  refine ⟨?_, ?_, ?_, ?_⟩
  · exact detectTick_paused
  · intro persistOk lds nowMs st qss hp
    induction qss with
    | nil => rfl
    | cons qs rest ih =>
      rw [List.foldl_cons, detectTick_paused persistOk lds nowMs st qs hp]
      exact ih
  · intro st hpop
    obtain ⟨h1, -, -, -, h5⟩ := acknowledge_fields st hpop
    exact ⟨h1, h5⟩
  · intro lds nowMs st q f n s hpop hbest hth hauto hblock
    obtain ⟨ha1, ha2, ha3, ha4, ha5⟩ := acknowledge_fields st hpop
    have hstep1 : processDetection true lds nowMs (acknowledge st) q
        = recordAttendance true
            { acknowledge st with
              currentDetection := some ("Recognized: " ++ capitalizeWords n) }
            f (capitalizeWords n) nowMs :=
      processDetection_success lds nowMs (acknowledge st) q f n s hbest hth hauto
        (by rw [ha2, ha3]; exact hblock)
    have hdb1 : (processDetection true lds nowMs (acknowledge st) q).attendanceDb
        = st.attendanceDb
            ++ [{ faceId := f, name := capitalizeWords n, timestamp := nowMs }] := by
      rw [hstep1]
      simp [recordAttendance, ha3]
    have hlast1 : (processDetection true lds nowMs (acknowledge st) q).lastAttendance
        = mapSet st.lastAttendance (toString f) nowMs := by
      rw [hstep1]
      simp [recordAttendance, ha2]
    constructor
    · unfold detectTick
      rw [if_neg (by rw [ha1]; simp), if_neg (by simp)]
      rw [List.foldl_cons, List.foldl_nil, hdb1]
      simp
    · unfold detectTick
      rw [if_neg (by rw [ha1]; simp), if_neg (by simp)]
      rw [List.foldl_cons, List.foldl_cons, List.foldl_nil]
      have hstep2 : processDetection true lds nowMs
            (processDetection true lds nowMs (acknowledge st) q) q
          = { processDetection true lds nowMs (acknowledge st) q with
              currentDetection :=
                some (capitalizeWords n ++ " - " ++ "Cooldown active (10s)") } := by
        apply processDetection_blocked lds nowMs _ q f n s "Cooldown active (10s)"
          hbest hth hauto
        rw [hlast1]
        exact blockReason_just_recorded st.lastAttendance _ f nowMs
      rw [hstep2]
      dsimp only
      rw [hdb1]
      simp

/-- C5 witness: a concrete paused session (popup shown for Alice) with one
enrolled identity; the acknowledged state then records exactly one event
for the next matching frame, also when that frame repeats the same face. -/
theorem claim_C5_witness :
    (detectTick true [⟨1, "alice", [[]]⟩] 20000
        (acknowledge ⟨true, [], [], some "Alice", [], none⟩) [[]]).attendanceDb.length
      = (⟨true, [], [], some "Alice", [], none⟩ : ScanState).attendanceDb.length + 1
    ∧ (detectTick true [⟨1, "alice", [[]]⟩] 20000
        (acknowledge ⟨true, [], [], some "Alice", [], none⟩) [[], []]).attendanceDb.length
      = (⟨true, [], [], some "Alice", [], none⟩ : ScanState).attendanceDb.length + 1 :=
  claim_C5.2.2.2 [⟨1, "alice", [[]]⟩] 20000 ⟨true, [], [], some "Alice", [], none⟩
    [] 1 "alice" 0 (by decide) (by decide) (by decide) (by decide) (by decide)

/-- C3: the eligibility check denies with the cooldown reason whenever the
in-memory cache entry or the latest persisted record of the identity lies
within ATTENDANCE_COOLDOWN_MS (10 s) before now, and once 10 s have elapsed
since both, the check never denies for cooldown (it may still deny for the
daily rule).  The hypothesis ATTENDANCE_COOLDOWN_MS <= nowMs records that
the clock reads at least 10 s past the epoch, which every real
Date.getTime value satisfies; it covers the source's defaulting of a
missing cache entry to 0. -/
theorem claim_C3 (cache : List (String × Int)) (db : List AttendanceRecord)
    (faceId : Nat) (nowMs : Int) (hnow : ATTENDANCE_COOLDOWN_MS ≤ nowMs) :
    (((∃ p, cache.find? (fun q => q.1 == toString faceId) = some p
          ∧ nowMs - p.2 < ATTENDANCE_COOLDOWN_MS)
        ∨ (∃ r, getLatestAttendanceByFaceId db faceId = some r
          ∧ nowMs - r.timestamp < ATTENDANCE_COOLDOWN_MS))
      → getAttendanceBlockReason cache db faceId nowMs
          = some "Cooldown active (10s)")
    ∧ ((∀ p, cache.find? (fun q => q.1 == toString faceId) = some p
          → ATTENDANCE_COOLDOWN_MS ≤ nowMs - p.2)
      → (∀ r, getLatestAttendanceByFaceId db faceId = some r
          → ATTENDANCE_COOLDOWN_MS ≤ nowMs - r.timestamp)
      → getAttendanceBlockReason cache db faceId nowMs
          ≠ some "Cooldown active (10s)") := by
  constructor
  · rintro (⟨p, hp, hlt⟩ | ⟨r, hr, hlt⟩)
    · unfold getAttendanceBlockReason
      have hll : lookupLast cache (toString faceId) = p.2 := by
        unfold lookupLast
        rw [hp]
      rw [hll, if_pos hlt]
    · unfold getAttendanceBlockReason
      by_cases hfirst :
          nowMs - lookupLast cache (toString faceId) < ATTENDANCE_COOLDOWN_MS
      · rw [if_pos hfirst]
      · rw [if_neg hfirst, hr]
        dsimp only
        rw [if_pos hlt]
  · intro h1 h2
    rw [blockReason_cooldown_passed cache db faceId nowMs hnow h1 h2]
    by_cases hd : hasAttendanceForFaceOnDate db faceId nowMs = true
    · rw [if_pos hd]
      decide
    · rw [if_neg hd]
      intro hcontra
      cases hcontra

/-- C3 witness: identity 1 recorded at t = 100000 ms (cache and store
agree); a match at t + 5 s is denied with the cooldown reason, and at
t + 11 s the check no longer denies for cooldown. -/
theorem claim_C3_witness :
    getAttendanceBlockReason [("1", 100000)] [⟨1, "alice", 100000⟩] 1 105000
        = some "Cooldown active (10s)"
    ∧ getAttendanceBlockReason [("1", 100000)] [⟨1, "alice", 100000⟩] 1 111000
        ≠ some "Cooldown active (10s)" := by
  constructor
  · exact (claim_C3 [("1", 100000)] [⟨1, "alice", 100000⟩] 1 105000 (by decide)).1
      (Or.inl ⟨("1", 100000), by decide, by decide⟩)
  · refine (claim_C3 [("1", 100000)] [⟨1, "alice", 100000⟩] 1 111000 (by decide)).2
      ?_ ?_
    · intro p hp
      have h0 : ([("1", (100000 : Int))].find? (fun q => q.1 == toString 1))
          = some ("1", 100000) := by decide
      rw [h0, Option.some.injEq] at hp
      subst hp
      decide
    · intro r hr
      have h0 : getLatestAttendanceByFaceId [⟨1, "alice", 100000⟩] 1
          = some ⟨1, "alice", 100000⟩ := by decide
      rw [h0, Option.some.injEq] at hr
      subst hr
      decide

/-- C4: outside the cooldown window the eligibility check denies with the
daily reason exactly when the authoritative store holds a record of this
identity within the local calendar day containing now, and allows
otherwise; the right-hand sides quantify over the store only, so the
verdict is independent of the in-memory cache (it holds in particular for
an empty post-restart cache). -/
theorem claim_C4 (cache : List (String × Int)) (db : List AttendanceRecord)
    (faceId : Nat) (nowMs : Int)
    (hnow : ATTENDANCE_COOLDOWN_MS ≤ nowMs)
    (hcache : ∀ p, cache.find? (fun q => q.1 == toString faceId) = some p
        → ATTENDANCE_COOLDOWN_MS ≤ nowMs - p.2)
    (hlatest : ∀ r, getLatestAttendanceByFaceId db faceId = some r
        → ATTENDANCE_COOLDOWN_MS ≤ nowMs - r.timestamp) :
    (getAttendanceBlockReason cache db faceId nowMs = some "Already marked today"
      ↔ ∃ r ∈ db, r.faceId = faceId
          ∧ dayStartMs nowMs ≤ r.timestamp
          ∧ r.timestamp < dayStartMs nowMs + dayMs)
    ∧ (getAttendanceBlockReason cache db faceId nowMs = none
      ↔ ¬ ∃ r ∈ db, r.faceId = faceId
          ∧ dayStartMs nowMs ≤ r.timestamp
          ∧ r.timestamp < dayStartMs nowMs + dayMs) := by
  rw [blockReason_cooldown_passed cache db faceId nowMs hnow hcache hlatest]
  rw [← hasAttendance_iff db faceId nowMs]
  by_cases hd : hasAttendanceForFaceOnDate db faceId nowMs = true
  · rw [if_pos hd]
    constructor
    · exact ⟨fun _ => hd, fun _ => rfl⟩
    · constructor
      · intro hcontra
        cases hcontra
      · intro hnot
        exact absurd hd hnot
  · rw [if_neg hd]
    constructor
    · constructor
      · intro hcontra
        cases hcontra
      · intro hdd
        exact absurd hdd hd
    · exact ⟨fun _ => hd, fun _ => rfl⟩

/-- C4 witness: identity 1 recorded at 09:00 of day 1 of the local clock
(timestamp 118800000); with an empty cache (a fresh process) a match at
23:00 the same day is denied as already marked, and at 00:01 of day 2 it is
allowed. -/
theorem claim_C4_witness :
    getAttendanceBlockReason [] [⟨1, "alice", 118800000⟩] 1 169200000
        = some "Already marked today"
    ∧ getAttendanceBlockReason [] [⟨1, "alice", 118800000⟩] 1 172860000 = none := by
  constructor
  · refine ((claim_C4 [] [⟨1, "alice", 118800000⟩] 1 169200000 (by decide)
      (fun p hp => nomatch hp) ?_).1).mpr (by decide)
    intro r hr
    have h0 : getLatestAttendanceByFaceId [⟨1, "alice", 118800000⟩] 1
        = some ⟨1, "alice", 118800000⟩ := by decide
    rw [h0, Option.some.injEq] at hr
    subst hr
    decide
  · refine ((claim_C4 [] [⟨1, "alice", 118800000⟩] 1 172860000 (by decide)
      (fun p hp => nomatch hp) ?_).2).mpr (by decide)
    intro r hr
    have h0 : getLatestAttendanceByFaceId [⟨1, "alice", 118800000⟩] 1
        = some ⟨1, "alice", 118800000⟩ := by decide
    rw [h0, Option.some.injEq] at hr
    subst hr
    decide

/-- C6: when persisting fails, recordAttendance leaves the state untouched
(no AwaitingAck transition, no cooldown-cache update), a whole failing tick
changes nothing but the diagnostic text so the next query vector is
processed afresh, and on a successful persist the cooldown cache and the
store are updated together - the cache only after the record is persisted. -/
theorem claim_C6 :
    (∀ (st : ScanState) (faceId : Nat) (name : String) (nowMs : Int),
        recordAttendance false st faceId name nowMs = st)
    ∧ (∀ (lds : List LabeledDescriptors) (nowMs : Int) (st : ScanState)
        (qs : List (List ℚ)),
        (detectTick false lds nowMs st qs).isPaused = st.isPaused
        ∧ (detectTick false lds nowMs st qs).lastAttendance = st.lastAttendance
        ∧ (detectTick false lds nowMs st qs).attendanceDb = st.attendanceDb
        ∧ (detectTick false lds nowMs st qs).attendancePopup = st.attendancePopup
        ∧ (detectTick false lds nowMs st qs).recentAttendance = st.recentAttendance)
    ∧ (∀ (st : ScanState) (faceId : Nat) (name : String) (nowMs : Int),
        (recordAttendance true st faceId name nowMs).lastAttendance
          = mapSet st.lastAttendance (toString faceId) nowMs
        ∧ (recordAttendance true st faceId name nowMs).attendanceDb
          = st.attendanceDb ++ [{ faceId := faceId, name := name, timestamp := nowMs }]
        ∧ (recordAttendance true st faceId name nowMs).isPaused = true) := by
  refine ⟨recordAttendance_fail, ?_, ?_⟩
  · intro lds nowMs st qs
    unfold detectTick
    by_cases hp : st.isPaused = true
    · rw [if_pos hp]
      exact ⟨rfl, rfl, rfl, rfl, rfl⟩
    · rw [if_neg hp]
      by_cases he : qs.isEmpty = true
      · rw [if_pos he]
        exact ⟨rfl, rfl, rfl, rfl, rfl⟩
      · rw [if_neg he]
        exact foldl_processDetection_fail lds nowMs qs st
  · intro st faceId name nowMs
    exact ⟨rfl, rfl, rfl⟩

/-- C7 counterexample: with zero registered faces startScanning reports the
no-gallery error but does NOT keep scanning - it returns before the camera
or the detection loop is started, contradicting the claim that scanning
still runs. -/
theorem claim_C7_counterexample :
    (startScanning [] true).scanningStarted = false
    ∧ (startScanning [] true).error
        = some "No faces registered yet. Please register at least one face first." :=
  ⟨rfl, rfl⟩

/-- C7 amended: when zero identities are enrolled the no-gallery condition
is reported at session start and scanning does not start at all, so no
query vector is processed, the eligibility gate is never invoked, and no
attendance event is recorded; moreover even a hypothetical tick against the
empty gallery could only yield the unknown diagnostic and would never touch
the store, the pause flag, or the cooldown cache. -/
theorem claim_C7_amended :
    (∀ cameraOk : Bool,
        (startScanning [] cameraOk).scanningStarted = false
        ∧ (startScanning [] cameraOk).error
            = some "No faces registered yet. Please register at least one face first.")
    ∧ (∀ (persistOk : Bool) (nowMs : Int) (st : ScanState) (qs : List (List ℚ)),
        (detectTick persistOk [] nowMs st qs).attendanceDb = st.attendanceDb
        ∧ (detectTick persistOk [] nowMs st qs).isPaused = st.isPaused
        ∧ (detectTick persistOk [] nowMs st qs).lastAttendance = st.lastAttendance) := by
  refine ⟨fun cameraOk => ⟨rfl, rfl⟩, ?_⟩
  intro persistOk nowMs st qs
  unfold detectTick
  by_cases hp : st.isPaused = true
  · rw [if_pos hp]
    exact ⟨rfl, rfl, rfl⟩
  · rw [if_neg hp]
    by_cases he : qs.isEmpty = true
    · rw [if_pos he]
      exact ⟨rfl, rfl, rfl⟩
    · rw [if_neg he]
      obtain ⟨h1, h2, h3⟩ := foldl_processDetection_empty persistOk nowMs qs st
      exact ⟨h3, h1, h2⟩

/-- C9: every recorded event is prepended to the recent list after the
previous list is cut to its first 9 entries, so the list never exceeds 10
entries and always holds the most recent events newest first (folding any
event sequence from the empty session list yields the reversed sequence cut
to 10). -/
theorem claim_C9 :
    (∀ (prev : List (String × Int)) (e : String × Int),
        (pushRecent prev e).length ≤ 10)
    ∧ (∀ events : List (String × Int),
        events.foldl pushRecent [] = events.reverse.take 10)
    ∧ (∀ (st : ScanState) (faceId : Nat) (name : String) (nowMs : Int),
        (recordAttendance true st faceId name nowMs).recentAttendance
          = pushRecent st.recentAttendance (name, nowMs)) := by
  refine ⟨?_, ?_, ?_⟩
  · intro prev e
    simp only [pushRecent, List.length_cons]
    have h := List.length_take 9 prev
    omega
  · intro events
    induction events using List.reverseRecOn with
    | nil => rfl
    | append_singleton xs x ih => simp [ih, pushRecent, List.take_take]
  · intro st faceId name nowMs
    rfl

/-- C10: getLatestAttendanceByFaceId returns none exactly when the store
has no record for the identity, and otherwise returns a record of that
identity whose timestamp is maximal among the identity's records. -/
theorem claim_C10 (db : List AttendanceRecord) (faceId : Nat) :
    (getLatestAttendanceByFaceId db faceId = none ↔ ∀ r ∈ db, r.faceId ≠ faceId)
    ∧ ∀ r, getLatestAttendanceByFaceId db faceId = some r →
        r ∈ db ∧ r.faceId = faceId
          ∧ ∀ r' ∈ db, r'.faceId = faceId → r'.timestamp ≤ r.timestamp :=
  ⟨getLatest_none_iff db faceId, fun r h => getLatest_some_spec db faceId r h⟩

/-- C10 witness: on a concrete store the helper picks the newest record of
face 1 and reports none for an identity without records. -/
theorem claim_C10_witness :
    ((⟨1, "alice", 200⟩ : AttendanceRecord)
        ∈ ([⟨1, "alice", 100⟩, ⟨1, "alice", 200⟩, ⟨2, "bob", 300⟩] : List AttendanceRecord)
      ∧ (⟨1, "alice", 200⟩ : AttendanceRecord).faceId = 1
      ∧ ∀ r' ∈ ([⟨1, "alice", 100⟩, ⟨1, "alice", 200⟩, ⟨2, "bob", 300⟩] : List AttendanceRecord),
          r'.faceId = 1 → r'.timestamp ≤ (⟨1, "alice", 200⟩ : AttendanceRecord).timestamp)
    ∧ getLatestAttendanceByFaceId
        [⟨1, "alice", 100⟩, ⟨1, "alice", 200⟩, ⟨2, "bob", 300⟩] 3 = none := by
  constructor
  · exact (claim_C10 [⟨1, "alice", 100⟩, ⟨1, "alice", 200⟩, ⟨2, "bob", 300⟩] 1).2
      ⟨1, "alice", 200⟩ (by decide)
  · exact (claim_C10 [⟨1, "alice", 100⟩, ⟨1, "alice", 200⟩, ⟨2, "bob", 300⟩] 3).1.mpr
      (by decide)

/-- C1: for every gallery identity (in particular any with two or more
enrolled vectors) the matcher's score is the minimum Euclidean distance
from the query to the identity's vectors - it is a lower bound of all the
vector distances and is attained by one of them, hence the minimum, not the
average - and the overall result selects the identity with the globally
smallest such score: the result carries the global minimum of the identity
scores, the selected (faceId, name) is borne by a gallery identity whose
score is that global minimum, and whenever the result's label is positive
it is exactly that selected identity. -/
theorem claim_C1 (lds : List LabeledDescriptors) (ld : LabeledDescriptors)
    (q : List ℚ) (hmem : ld ∈ lds) (hlen : 2 ≤ ld.descriptors.length) :
    ((∀ d ∈ ld.descriptors,
        Real.sqrt (identityScoreSq q ld.descriptors : ℝ)
          ≤ Real.sqrt (distSq q d : ℝ))
      ∧ ∃ d ∈ ld.descriptors,
          Real.sqrt (identityScoreSq q ld.descriptors : ℝ)
            = Real.sqrt (distSq q d : ℝ))
    ∧ ((∀ ld' ∈ lds,
        Real.sqrt ((findBestMatch MATCH_THRESHOLD_SQ lds q).scoreSq : ℝ)
          ≤ Real.sqrt (identityScoreSq q ld'.descriptors : ℝ))
      ∧ ∃ ld' ∈ lds,
          Real.sqrt ((findBestMatch MATCH_THRESHOLD_SQ lds q).scoreSq : ℝ)
            = Real.sqrt (identityScoreSq q ld'.descriptors : ℝ))
    ∧ ∃ f n s, bestMatchAux q lds = some (f, n, s)
        ∧ (findBestMatch MATCH_THRESHOLD_SQ lds q).scoreSq = s
        ∧ (∃ ld' ∈ lds, ld'.faceId = f ∧ ld'.name = n
            ∧ s = identityScoreSq q ld'.descriptors
            ∧ ∀ ld'' ∈ lds, s ≤ identityScoreSq q ld''.descriptors)
        ∧ ∀ p, (findBestMatch MATCH_THRESHOLD_SQ lds q).label = some p
            → p = (f, n) := by
  have hne : ld.descriptors ≠ [] := by
    intro hnil
    rw [hnil] at hlen
    simp at hlen
  obtain ⟨ld0, rest, rfl⟩ : ∃ a l, lds = a :: l := by
    cases lds with
    | nil => cases hmem
    | cons a l => exact ⟨a, l, rfl⟩
  obtain ⟨f, n, s, hsome⟩ := bestMatchAux_isSome q ld0 rest
  have hsq := findBestMatch_scoreSq MATCH_THRESHOLD_SQ (ld0 :: rest) q f n s hsome
  obtain ⟨⟨ld1, hld1, hfid1, hname1, hs1⟩, hall⟩ :=
    bestMatchAux_spec q (ld0 :: rest) f n s hsome
  refine ⟨⟨?_, ?_⟩, ⟨?_, ?_⟩, f, n, s, hsome, hsq,
    ⟨ld1, hld1, hfid1, hname1, hs1, hall⟩,
    findBestMatch_label MATCH_THRESHOLD_SQ (ld0 :: rest) q f n s hsome⟩
  · intro d hd
    exact Real.sqrt_le_sqrt
      (by exact_mod_cast identityScoreSq_le q ld.descriptors d hd)
  · obtain ⟨d, hd, heq⟩ := identityScoreSq_attained q ld.descriptors hne
    exact ⟨d, hd, by rw [heq]⟩
  · intro ld' hld'
    rw [hsq]
    exact Real.sqrt_le_sqrt (by exact_mod_cast hall ld' hld')
  · exact ⟨ld1, hld1, by rw [hsq, hs1]⟩

/-- C1 witness: a concrete identity with two enrolled vectors inside a
one-identity gallery; the theorem's hypotheses hold by evaluation. -/
theorem claim_C1_witness :
    ((∀ d ∈ ([[], []] : List (List ℚ)),
        Real.sqrt (identityScoreSq [] ([[], []] : List (List ℚ)) : ℝ)
          ≤ Real.sqrt (distSq [] d : ℝ))
      ∧ ∃ d ∈ ([[], []] : List (List ℚ)),
          Real.sqrt (identityScoreSq [] ([[], []] : List (List ℚ)) : ℝ)
            = Real.sqrt (distSq [] d : ℝ))
    ∧ ((∀ ld' ∈ [(⟨1, "alice", [[], []]⟩ : LabeledDescriptors)],
        Real.sqrt ((findBestMatch MATCH_THRESHOLD_SQ
            [(⟨1, "alice", [[], []]⟩ : LabeledDescriptors)] []).scoreSq : ℝ)
          ≤ Real.sqrt (identityScoreSq [] ld'.descriptors : ℝ))
      ∧ ∃ ld' ∈ [(⟨1, "alice", [[], []]⟩ : LabeledDescriptors)],
          Real.sqrt ((findBestMatch MATCH_THRESHOLD_SQ
              [(⟨1, "alice", [[], []]⟩ : LabeledDescriptors)] []).scoreSq : ℝ)
            = Real.sqrt (identityScoreSq [] ld'.descriptors : ℝ))
    ∧ ∃ f n s, bestMatchAux []
          [(⟨1, "alice", [[], []]⟩ : LabeledDescriptors)] = some (f, n, s)
        ∧ (findBestMatch MATCH_THRESHOLD_SQ
            [(⟨1, "alice", [[], []]⟩ : LabeledDescriptors)] []).scoreSq = s
        ∧ (∃ ld' ∈ [(⟨1, "alice", [[], []]⟩ : LabeledDescriptors)],
            ld'.faceId = f ∧ ld'.name = n
            ∧ s = identityScoreSq [] ld'.descriptors
            ∧ ∀ ld'' ∈ [(⟨1, "alice", [[], []]⟩ : LabeledDescriptors)],
                s ≤ identityScoreSq [] ld''.descriptors)
        ∧ ∀ p, (findBestMatch MATCH_THRESHOLD_SQ
              [(⟨1, "alice", [[], []]⟩ : LabeledDescriptors)] []).label = some p
            → p = (f, n) :=
  claim_C1 [⟨1, "alice", [[], []]⟩] ⟨1, "alice", [[], []]⟩ []
    (by decide) (by decide)

/-- C2: with d_min the best distance of a non-empty gallery, the match is
positive exactly when d_min <= 0.45 (the threshold is inclusive); a
positive result names the best identity and its confidence
floor((1 - d_min)*100 + 1/2) (JavaScript Math.round of (1 - d_min)*100)
already lies in [0, 100], so clamping it is the identity; a negative result
is the unknown label that still carries the best distance (so the
confidence stays derivable for diagnostics) and a tick processing it only
updates the diagnostic text - it never consults the eligibility gate nor
records an event. -/
theorem claim_C2 (lds : List LabeledDescriptors) (q : List ℚ) (f : Nat)
    (n : String) (s : ℚ) (h : bestMatchAux q lds = some (f, n, s)) :
    ((findBestMatch MATCH_THRESHOLD_SQ lds q).label.isSome = true
        ↔ Real.sqrt (s : ℝ) ≤ 45 / 100)
    ∧ (Real.sqrt (s : ℝ) ≤ 45 / 100 →
        findBestMatch MATCH_THRESHOLD_SQ lds q
            = { label := some (f, n), scoreSq := s }
        ∧ (0 : ℤ) ≤ ⌊(1 - Real.sqrt (s : ℝ)) * 100 + 1 / 2⌋
        ∧ ⌊(1 - Real.sqrt (s : ℝ)) * 100 + 1 / 2⌋ ≤ 100
        ∧ max 0 (min 100 ⌊(1 - Real.sqrt (s : ℝ)) * 100 + 1 / 2⌋)
            = ⌊(1 - Real.sqrt (s : ℝ)) * 100 + 1 / 2⌋)
    ∧ (¬ Real.sqrt (s : ℝ) ≤ 45 / 100 →
        findBestMatch MATCH_THRESHOLD_SQ lds q = { label := none, scoreSq := s }
        ∧ ∀ (persistOk : Bool) (nowMs : Int) (st : ScanState),
            processDetection persistOk lds nowMs st q
              = { st with currentDetection := some "Unknown face detected" }) := by
  have hth := sqrt_le_threshold_iff s
  refine ⟨?_, ?_, ?_⟩
  · by_cases hs : s ≤ MATCH_THRESHOLD_SQ
    · rw [findBestMatch_pos MATCH_THRESHOLD_SQ lds q f n s h hs]
      simp only [Option.isSome_some]
      exact iff_of_true trivial (hth.mpr hs)
    · rw [findBestMatch_neg MATCH_THRESHOLD_SQ lds q f n s h hs]
      simp only [Option.isSome_none]
      exact iff_of_false (by simp) (fun hc => hs (hth.mp hc))
  · intro hsqrt
    have hs := hth.mp hsqrt
    have hnn := Real.sqrt_nonneg ((s : ℚ) : ℝ)
    have hlo : (0 : ℤ) ≤ ⌊(1 - Real.sqrt (s : ℝ)) * 100 + 1 / 2⌋ := by
      rw [Int.le_floor]
      push_cast
      linarith
    have hhi : ⌊(1 - Real.sqrt (s : ℝ)) * 100 + 1 / 2⌋ ≤ 100 := by
      rw [Int.floor_le_iff]
      push_cast
      linarith
    exact ⟨findBestMatch_pos MATCH_THRESHOLD_SQ lds q f n s h hs, hlo, hhi,
      by rw [min_eq_right hhi, max_eq_right hlo]⟩
  · intro hnot
    have hs : ¬ s ≤ MATCH_THRESHOLD_SQ := fun hc => hnot (hth.mpr hc)
    have hneg := findBestMatch_neg MATCH_THRESHOLD_SQ lds q f n s h hs
    refine ⟨hneg, ?_⟩
    intro persistOk nowMs st
    simp only [processDetection, hneg]

/-- C2 witness: a query at distance 0 from its gallery identity is a
positive match with confidence bounds as stated. -/
theorem claim_C2_witness :
    bestMatchAux [] [⟨1, "alice", [[]]⟩] = some (1, "alice", 0)
    ∧ (findBestMatch MATCH_THRESHOLD_SQ [⟨1, "alice", [[]]⟩] []
        = { label := some (1, "alice"), scoreSq := 0 }
      ∧ (0 : ℤ) ≤ ⌊(1 - Real.sqrt ((0 : ℚ) : ℝ)) * 100 + 1 / 2⌋
      ∧ ⌊(1 - Real.sqrt ((0 : ℚ) : ℝ)) * 100 + 1 / 2⌋ ≤ 100
      ∧ max 0 (min 100 ⌊(1 - Real.sqrt ((0 : ℚ) : ℝ)) * 100 + 1 / 2⌋)
          = ⌊(1 - Real.sqrt ((0 : ℚ) : ℝ)) * 100 + 1 / 2⌋) :=
  ⟨by decide, (claim_C2 [⟨1, "alice", [[]]⟩] [] 1 "alice" 0 (by decide)).2.1
    (by rw [Rat.cast_zero, Real.sqrt_zero]; norm_num)⟩

/-- C8: two enrollment records whose display names agree after lower-casing
and trimming end up in one and the same group built by loadFaces - both
descriptors are in that single group's vector set (the union of the
group's enrollments), the group with that key is unique, and every vector
of the group participates in matching (the identity's score is a lower
bound of the distance to each of its vectors). -/
theorem claim_C8 (faces : List RegisteredFace) (f g : RegisteredFace)
    (hf : f ∈ faces) (hg : g ∈ faces)
    (hname : normalizeName f.name = normalizeName g.name) :
    ∃ e ∈ groupFaces faces,
      e.key = normalizeName f.name
      ∧ f.descriptor ∈ e.descriptors ∧ g.descriptor ∈ e.descriptors
      ∧ (∀ e' ∈ groupFaces faces, e'.key = normalizeName f.name → e' = e)
      ∧ ∀ (q : List ℚ), ∀ d ∈ e.descriptors,
          identityScoreSq q e.descriptors ≤ distSq q d := by
  obtain ⟨e1, he1, hk1, hd1⟩ := groupFaces_aux_mem faces [] f hf
  obtain ⟨e2, he2, hk2, hd2⟩ := groupFaces_aux_mem faces [] g hg
  have hnd := groupFaces_nodup faces
  have hkeq : e1.key = e2.key := by rw [hk1, hk2, hname]
  have heq : e1 = e2 := pairwise_key_unique (groupFaces faces) hnd e1 he1 e2 he2 hkeq
  refine ⟨e1, he1, hk1, hd1, ?_, ?_, ?_⟩
  · rw [heq]
    exact hd2
  · intro e' he' hk'
    exact pairwise_key_unique (groupFaces faces) hnd e' he' e1 he1 (by rw [hk', hk1])
  · intro q d hd
    exact identityScoreSq_le q e1.descriptors d hd

/-- C8 witness: two concrete enrollments whose names differ only in case
and surrounding whitespace merge into one group holding both descriptors. -/
theorem claim_C8_witness :
    ∃ e ∈ groupFaces [⟨1, " Alice", [1]⟩, ⟨2, "ALICE  ", [2]⟩],
      e.key = normalizeName (⟨1, " Alice", [1]⟩ : RegisteredFace).name
      ∧ (⟨1, " Alice", [1]⟩ : RegisteredFace).descriptor ∈ e.descriptors
      ∧ (⟨2, "ALICE  ", [2]⟩ : RegisteredFace).descriptor ∈ e.descriptors
      ∧ (∀ e' ∈ groupFaces [⟨1, " Alice", [1]⟩, ⟨2, "ALICE  ", [2]⟩],
          e'.key = normalizeName (⟨1, " Alice", [1]⟩ : RegisteredFace).name → e' = e)
      ∧ ∀ (q : List ℚ), ∀ d ∈ e.descriptors,
          identityScoreSq q e.descriptors ≤ distSq q d :=
  claim_C8 [⟨1, " Alice", [1]⟩, ⟨2, "ALICE  ", [2]⟩]
    ⟨1, " Alice", [1]⟩ ⟨2, "ALICE  ", [2]⟩ (by decide) (by decide) (by decide)

end LabEntry
